import Mathlib

/-!
Verification development for the fantasy-stats frontend.

This file gives a shallow embedding of the pure computational parts of the
React frontend (api/client.js, AwardsTab.jsx, OpponentAnalysisTab.jsx,
DashboardTab.jsx) and proves the specification claims about them.

Modelling conventions:
* JavaScript numbers are modelled as `Int`/`Rat` (exact arithmetic) except in
  the z-normalisation of OpponentAnalysisTab, where `Math.sqrt` forces `Real`.
* `null`/`undefined` are modelled with `Option` or with an explicit `JSVal`
  variant type where a value can be one of several JS types.
* React component state is modelled as an explicit transition system; an
  effect pass that follows a committed render is modelled as a function of the
  committed state, and requests issued by effects are collected explicitly.
-/

/-! ## Model of frontend/src/api/client.js -/

/-- A JavaScript value as it can appear in a query-parameter object. -/
inductive JSVal where
  | vnull
  | vundef
  | vstr (s : String)
  | vnum (n : Int)
  | vbool (b : Bool)
deriving DecidableEq

/-- JS truthiness of a `JSVal` (there is no NaN in the exact-number model). -/
def jsTruthy : JSVal → Bool
  | .vnull => false
  | .vundef => false
  | .vstr s => !(s == "")
  | .vnum n => !(n == 0)
  | .vbool b => b

/-- Models the JS test `typeof v === "boolean"`. -/
def jsIsBool : JSVal → Bool
  | .vbool _ => true
  | _ => false

/-- Models JS `String(value)`. -/
def jsToString : JSVal → String
  | .vnull => "null"
  | .vundef => "undefined"
  | .vstr s => s
  | .vnum n => toString n
  | .vbool b => if b then "true" else "false"

/-- Executable model of JS `String.prototype.trim` (drop leading and
trailing whitespace). -/
def jsTrim (s : String) : String :=
  ⟨((s.data.dropWhile Char.isWhitespace).reverse.dropWhile Char.isWhitespace).reverse⟩

/-- client.js line 11: `value === null || value === undefined || value === ""`
— the condition under which `buildUrl` drops a query parameter. -/
def skipParam (v : JSVal) : Bool :=
  v == .vnull || v == .vundef || v == .vstr ""

/-- Models `URLSearchParams.set`: replace the value if the key is present,
append the pair otherwise. -/
def searchSet (l : List (String × String)) (k v : String) : List (String × String) :=
  if l.any (fun p => p.1 == k) then
    l.map (fun p => if p.1 == k then (k, v) else p)
  else l ++ [(k, v)]

/-- client.js lines 9-14: fold `Object.entries(params)`, skipping null /
undefined / empty-string values, `set`ting `String(value).trim()` otherwise. -/
def buildUrlParams (params : List (String × JSVal)) : List (String × String) :=
  params.foldl
    (fun acc p => if skipParam p.2 then acc else searchSet acc p.1 (jsTrim (jsToString p.2)))
    []

/-- Models `URLSearchParams.toString` (percent-encoding omitted: the app only
uses alphanumeric keys and values). -/
def searchToString (l : List (String × String)) : String :=
  String.intercalate "&" (l.map (fun p => p.1 ++ "=" ++ p.2))

/-- client.js line 3 (frontend/src/api/client.js). -/
def API_BASE : String := "http://127.0.0.1:5001"

/-- client.js lines 8-16: the full URL built for a request. -/
def buildUrl (path : String) (params : List (String × JSVal)) : String :=
  let qs := searchToString (buildUrlParams params)
  API_BASE ++ path ++ (if qs == "" then "" else "?" ++ qs)

/-- The request a client.js wrapper hands to `fetch`, at the granularity the
claims need: path plus the surviving (stringified, trimmed) parameters. -/
structure JSRequest where
  path : String
  query : List (String × String)
deriving DecidableEq

/-- The request constructed by `fetchJson(path, params)`. -/
def fetchRequest (path : String) (params : List (String × JSVal)) : JSRequest :=
  ⟨path, buildUrlParams params⟩

/-- An HTTP response as `fetchJson` observes it.  `body` is the parsed JSON
value of an ok response (responses of this API are JSON; `res.json()` is
modelled as total). -/
structure HttpResponse (β : Type) where
  ok : Bool
  status : Nat
  statusText : String
  text : String
  body : β

/-- client.js lines 18-30: throw on a non-ok response (message carrying the
status code, status text, and body text or URL), return the parsed body
otherwise.  The thrown `Error` is modelled as `Except.error`. -/
def fetchJson (url : String) (r : HttpResponse β) : Except String β :=
  if r.ok then .ok r.body
  else .error ("Request failed: " ++ toString r.status ++ " " ++ r.statusText ++ " – "
    ++ (if r.text == "" then url else r.text))

/-- Models `p[k] = f(p[k])` guarded by `k in p` on a JS object represented as
an entry list: entries for other keys are untouched, no entry is added. -/
def objUpdate (l : List (String × JSVal)) (k : String) (f : JSVal → JSVal) :
    List (String × JSVal) :=
  l.map (fun p => if p.1 == k then (p.1, f p.2) else p)

/-- client.js (api, unnamed part) `getOpponentMatrix`, object-style branch
(the only branch `getOpponentMatrixMulti` uses): copy the params object,
encode `currentOwnerEraOnly` as 1/0, encode a boolean `refresh` as 1/0, then
fetch `/api/analysis/opponent-matrix`. -/
def getOpponentMatrixObj (params : List (String × JSVal)) : JSRequest :=
  let p1 := objUpdate params "currentOwnerEraOnly"
    (fun v => .vnum (if jsTruthy v then 1 else 0))
  let p2 := objUpdate p1 "refresh"
    (fun v => if jsIsBool v then .vnum (if jsTruthy v then 1 else 0) else v)
  fetchRequest "/api/analysis/opponent-matrix" p2

/-- client.js `getOpponentMatrixMulti(startYear, endYear, teamId,
currentOwnerEraOnly, refresh)`: builds the object-style params and delegates
to `getOpponentMatrix`. -/
def getOpponentMatrixMulti (startYear endYear teamId : Int)
    (currentOwnerEraOnly refresh : Bool) : JSRequest :=
  getOpponentMatrixObj
    [("startYear", .vnum startYear),
     ("endYear", .vnum endYear),
     ("teamId", .vnum teamId),
     ("currentOwnerEraOnly", .vbool currentOwnerEraOnly),
     ("refresh", .vbool refresh)]

/-! ## Model of AwardsTab.jsx (filters and rendering) -/

inductive AwScope where
  | league
  | team
  | owner
deriving DecidableEq, Fintype

inductive AwMode where
  | summary
  | year_by_year
deriving DecidableEq, Fintype

/-- The part of AwardsTab state the scope/mode claims are about. -/
structure AwState where
  scope : AwScope
  mode : AwMode
deriving DecidableEq, Fintype

/-- A user interaction with the scope or mode select. -/
inductive AwEvent where
  | setScope (s : AwScope)
  | setMode (m : AwMode)
deriving DecidableEq, Fintype

/-- Which interactions the rendered controls allow in a given state: the
scope select is always enabled; the mode select is disabled while
`scope === "league"` (and the `year_by_year` option is only rendered when
scope is not league). -/
def awAllowed (st : AwState) : AwEvent → Bool
  | .setScope _ => true
  | .setMode _ => !(st.scope == .league)

/-- The state committed by the event handler itself. -/
def awApply (st : AwState) : AwEvent → AwState
  | .setScope s => { st with scope := s }
  | .setMode m => { st with mode := m }

/-- AwardsTab lines 129-134: the corrective effect forcing league scope back
to summary mode. -/
def awFixMode (st : AwState) : AwMode :=
  if st.scope = .league ∧ st.mode ≠ .summary then .summary else st.mode

/-- One user event followed by the effect passes it triggers, collecting the
`(scope, mode)` pair of every awards request issued by the fetch effect.
Each committed render runs the corrective effect and then the fetch effect
with that render's state; a state update scheduled by the corrective effect
only takes hold in the next commit. -/
def awStep (st : AwState) (e : AwEvent) : AwState × List (AwScope × AwMode) :=
  let s1 := awApply st e
  let m2 := awFixMode s1
  if m2 = s1.mode then (s1, [(s1.scope, s1.mode)])
  else ({ s1 with mode := m2 }, [(s1.scope, s1.mode), (s1.scope, m2)])

/-- Runs a list of user events from a state, collecting all issued requests. -/
def awRun (st : AwState) : List AwEvent → AwState × List (AwScope × AwMode)
  | [] => (st, [])
  | e :: es =>
    let r := awStep st e
    let rest := awRun r.1 es
    (rest.1, r.2 ++ rest.2)

/-- Every event of the list is allowed by the controls at the state where it
fires. -/
def awTraceAllowed (st : AwState) : List AwEvent → Bool
  | [] => true
  | e :: es => awAllowed st e && awTraceAllowed (awStep st e).1 es

/-- Settled (post-effect) states reachable through allowed interactions from
the initial state `scope = "league"`, `mode = "summary"`. -/
inductive AwReachable : AwState → Prop
  | init : AwReachable ⟨.league, .summary⟩
  | step (st : AwState) (e : AwEvent) (h : AwReachable st)
      (he : awAllowed st e = true) : AwReachable (awStep st e).1

/-- The per-year partition object `data.awards.<family>` as `pickYBY`
receives it: absent (`undefined`), a non-object (including arrays), or an
object whose entries hold either an array of winners (`some ws`) or some
non-array value (`none`). -/
inductive YBYPartition (α : Type) where
  | absent
  | nonObject
  | table (entries : List (String × Option (List α)))

/-- AwardsTab lines 359-364 `pickYBY`: non-objects give `[]`; otherwise read
the entry under the selected year, falling back to the object's first key
when no year is selected (`selectedYBYYear` empty is falsy); a missing key or
a non-array value gives `[]`. -/
def pickYBY (sel : String) : YBYPartition α → List α
  | .absent => []
  | .nonObject => []
  | .table entries =>
    let key : Option String := if sel == "" then entries.head?.map Prod.fst else some sel
    match key with
    | none => []
    | some k =>
      match entries.lookup k with
      | some (some ws) => ws
      | some none => []
      | none => []

/-- AwardsTab line 367 shape: in summary mode the rendered list is the
summary payload; in year_by_year mode it is `pickYBY` of the partition. -/
def renderedFamilyList (mode : AwMode) (summaryList : List α) (sel : String)
    (part : YBYPartition α) : List α :=
  match mode with
  | .summary => summaryList
  | .year_by_year => pickYBY sel part

/-- What `renderWinners` produces, at the granularity claim C5 needs: the
"No winners" empty state or the winner list. There is no error variant:
`renderWinners` cannot render an error. -/
inductive WinnersView (α : Type) where
  | noWinners
  | winnersList (ws : List α)
deriving DecidableEq

/-- AwardsTab lines 262-265: `winners = []` defaults a missing list; a
non-array or empty list renders "No winners". -/
def renderWinners (winners : Option (List α)) : WinnersView α :=
  match winners with
  | none => .noWinners
  | some [] => .noWinners
  | some ws => .winnersList ws

/-- AwardsTab error banner state after a fetch settles: `some msg` iff the
fetch threw. -/
def awardsErrState (res : Except String β) : Option String :=
  match res with
  | .error e => some e
  | .ok _ => none

/-! ## Model of OpponentAnalysisTab.jsx -/

/-- A JS number input as the heat-map helpers receive it: absent
(null/undefined), NaN, or an actual (exact) number. -/
inductive JSNum where
  | missing
  | nan
  | val (q : Rat)
deriving DecidableEq

/-- OpponentAnalysisTab lines 11-14 `clamp01`. -/
def clamp01 : JSNum → Rat
  | .missing => 1/2
  | .nan => 1/2
  | .val v => min 1 (max 0 v)

/-- The `stats` object of OpponentAnalysisTab lines 382-392. -/
structure HeatStats where
  min : Rat
  max : Rat
  maxAbs : Rat
deriving DecidableEq

/-- OpponentAnalysisTab lines 26-28 `flatten`. -/
def flatten (arr : List (List α)) : List α :=
  arr.foldl (fun acc row => acc ++ row) []

/-- OpponentAnalysisTab lines 382-392: min/max/maxAbs over the numeric,
non-NaN matrix entries, with defaults `{0, 1, 1}` and a `0.1` floor on
`maxAbs`. -/
def statsOf (values : List (List JSNum)) : HeatStats :=
  if values.isEmpty then ⟨0, 1, 1⟩
  else
    let flat := (flatten values).filterMap
      (fun x => match x with | .val v => some v | _ => none)
    match flat with
    | [] => ⟨0, 1, 1⟩
    | x :: xs =>
      let minVal := xs.foldl min x
      let maxVal := xs.foldl max x
      ⟨minVal, maxVal, max (max |minVal| |maxVal|) (1/10)⟩

/-- A computed cell background colour. -/
inductive HeatColor where
  | transparent
  | rgba (r g b : Nat) (alpha : Rat)
deriving DecidableEq

/-- OpponentAnalysisTab lines 30-56 `getHeatColor`. -/
def getHeatColor (value : JSNum) (mode : String) (stats : HeatStats) : HeatColor :=
  match value with
  | .missing => .transparent
  | .nan => .transparent
  | .val v =>
    if mode = "zDiff" then
      let maxAbs := if stats.maxAbs = 0 then 1 else stats.maxAbs
      let norm := min (|v| / maxAbs) 1
      let alpha := 15/100 + 6/10 * norm
      if v ≥ 0 then .rgba 34 197 94 alpha else .rgba 239 68 68 alpha
    else
      let u := min 1 (max 0 v)
      let center : Rat := 1/2
      if u = center then .transparent
      else if u > center then
        let norm := (u - center) / (1 - center)
        .rgba 34 197 94 (15/100 + 6/10 * norm)
      else
        let norm := (center - u) / center
        .rgba 248 113 113 (15/100 + 6/10 * norm)

/-- The `overall` record of one opponent row of the opponent-matrix payload
(fields individually optional, as the frontend defends each one). -/
structure OppOverall where
  wins : Option Nat
  losses : Option Nat
  ties : Option Nat
  winPct : Option Rat
deriving DecidableEq

/-- One opponent row of the payload, restricted to the fields the record
summary reads (the per-category map is irrelevant to claim C2). -/
structure OppRow where
  overall : Option OppOverall
  matchups : Option Nat
deriving DecidableEq

/-- The record summary stored in `recordMap[r.opponentName]`. -/
structure RecordSummary where
  wins : Nat
  losses : Nat
  ties : Nat
  winPct : Rat
  matchups : Nat
deriving DecidableEq

/-- OpponentAnalysisTab lines 280-299: the record summary computed from one
payload row (`?? 0` defaults, `|| 1` total floor, computed winPct fallback,
`matchups ?? total`). -/
def recordEntry (r : OppRow) : RecordSummary :=
  let overall := r.overall.getD ⟨none, none, none, none⟩
  let wins := overall.wins.getD 0
  let losses := overall.losses.getD 0
  let ties := overall.ties.getD 0
  let total := if wins + losses + ties = 0 then 1 else wins + losses + ties
  let winPct :=
    match overall.winPct with
    | some q => q
    | none => ((wins : Rat) + 1/2 * (ties : Rat)) / (total : Rat)
  ⟨wins, losses, ties, winPct, r.matchups.getD total⟩

/-- Outcome of one shared head-to-head week between a team and one opponent. -/
inductive MatchOutcome where
  | win
  | loss
  | tie
deriving DecidableEq

/-- Modelled from the spec: the backend OpponentMatrixAggregator (not under
src/) produces, for a (team, opponent) pair, no row when the pair shares no
weeks in range, and otherwise one row whose overall record tallies the
win/loss/tie outcome of each shared week and whose `matchups` is the number
of shared weeks ("a team that has never played a given opponent within the
range contributes no row"; "with N shared weeks, wins+losses+ties ==
matchups == N"). -/
def specOpponentRow (ws : List MatchOutcome) : Option OppRow :=
  if ws = [] then none
  else some
    { overall := some
        { wins := some (ws.count .win),
          losses := some (ws.count .loss),
          ties := some (ws.count .tie),
          winPct := some (((ws.count .win : Rat) + 1/2 * (ws.count .tie : Rat)) / (ws.length : Rat)) },
      matchups := some ws.length }

/-- The year-selector state of OpponentAnalysisTab: the current `yearRange`
memo value and the two bounds. -/
structure OppYearState where
  range : List Nat
  minY : Option Nat
  maxY : Option Nat
deriving DecidableEq

/-- One bound update of the initialisation effect (lines 112-124): a null
bound becomes the given default, a set bound is clamped into
`[defaultMin, defaultMax]`. -/
def initBound (prev : Option Nat) (dflt dMin dMax : Nat) : Nat :=
  match prev with
  | none => dflt
  | some p => if p < dMin then dMin else if p > dMax then dMax else p

/-- Last element of a year list (`yearRange[yearRange.length - 1]`). -/
def lastD (l : List Nat) : Nat := l.getLastD 0

/-- OpponentAnalysisTab lines 106-125: the initialisation effect run when the
`yearRange` memo changes; it returns early on an empty range, otherwise
applies `initBound` with `defaultMin = 2019` and `defaultMax` the last year
of the range. -/
def applyYears (r : List Nat) (st : OppYearState) : OppYearState :=
  if r.isEmpty then { st with range := r }
  else
    let dMin : Nat := 2019
    let dMax : Nat := lastD r
    { range := r,
      minY := some (initBound st.minY dMin dMin dMax),
      maxY := some (initBound st.maxY dMax dMin dMax) }

/-- OpponentAnalysisTab lines 187-191 `minYearOptions`. -/
def minYearOptions (st : OppYearState) : List Nat :=
  if st.range.isEmpty then []
  else match st.maxY with
    | none => st.range
    | some m => st.range.filter (fun y => y ≤ m)

/-- OpponentAnalysisTab lines 193-197 `maxYearOptions`. -/
def maxYearOptions (st : OppYearState) : List Nat :=
  if st.range.isEmpty then []
  else match st.minY with
    | none => st.range
    | some m => st.range.filter (fun y => m ≤ y)

/-- OpponentAnalysisTab lines 493-500: the min-year select handler; dragging
the max bound along when the new min passes it. -/
def applySetMin (v : Nat) (st : OppYearState) : OppYearState :=
  { st with
    minY := some v,
    maxY := match st.maxY with
      | some m => if m < v then some v else some m
      | none => none }

/-- OpponentAnalysisTab lines 517-524: the max-year select handler; dragging
the min bound along when the new max passes it. -/
def applySetMax (v : Nat) (st : OppYearState) : OppYearState :=
  { st with
    maxY := some v,
    minY := match st.minY with
      | some m => if v < m then some v else some m
      | none => none }

/-- OpponentAnalysisTab lines 206-242: the fetch effect issues an
opponent-matrix request with the current bounds exactly when a team is
selected and both bounds are set. -/
def oppRequest (teamSelected : Bool) (st : OppYearState) : Option (Nat × Nat) :=
  match st.minY, st.maxY with
  | some m, some M => if teamSelected then some (m, M) else none
  | _, _ => none

/-- States of the year selectors reachable after mount, under the hypothesis
that every non-empty year range the component sees has its latest year at
least 2019 (the hardcoded `defaultMin`). -/
inductive OppReachable : OppYearState → Prop
  | init : OppReachable ⟨[], none, none⟩
  | years (r : List Nat) (st : OppYearState) (h : OppReachable st)
      (hr : r.isEmpty = true ∨ 2019 ≤ lastD r) : OppReachable (applyYears r st)
  | setMin (v : Nat) (st : OppYearState) (h : OppReachable st) :
      OppReachable (applySetMin v st)
  | setMax (v : Nat) (st : OppYearState) (h : OppReachable st) :
      OppReachable (applySetMax v st)

/-! ## Model of DashboardTab.jsx weekly sort -/

/-- A team row of the weekly power payload, restricted to the fields the
weekly sort reads. -/
structure PowerTeam where
  teamName : Option String
  rank : Option Nat
  totalZ : Option Rat
  perCategoryZ : List (String × Rat)
deriving DecidableEq

inductive SortDir where
  | asc
  | desc
deriving DecidableEq

/-- Three-way comparison sign over a linear order. -/
def sign3 {α : Type} [LinearOrder α] (x y : α) : Int :=
  if x < y then -1 else if y < x then 1 else 0

/-- DashboardTab lines 33-38 `compareStrings` (`localeCompare` modelled as
lexicographic string comparison; only its sign reaches the sort). -/
def compareStrings (d : SortDir) (a b : Option String) : Int :=
  let sa := a.getD ""
  let sb := b.getD ""
  let cmp := sign3 sa sb
  match d with
  | .asc => cmp
  | .desc => -cmp

/-- DashboardTab lines 40-45: a missing / non-number value sorts as negative
infinity, modelled as the bottom of `WithBot Rat`. -/
def numKey (x : Option Rat) : WithBot Rat :=
  match x with
  | some v => (v : WithBot Rat)
  | none => ⊥

/-- DashboardTab lines 40-45 `compareNumbers`; the sign of the JS float
subtraction `na - nb` (resp. `nb - na`) is `sign3`. -/
def compareNumbers (d : SortDir) (a b : Option Rat) : Int :=
  let na := numKey a
  let nb := numKey b
  if na = nb then 0
  else match d with
    | .asc => sign3 na nb
    | .desc => sign3 nb na

/-- DashboardTab lines 51-69: the comparator passed to the weekly sort,
dispatching on the sort field string. -/
def cmpWeekTeams (field : String) (d : SortDir) (a b : PowerTeam) : Int :=
  if field = "TEAM_NAME" then compareStrings d a.teamName b.teamName
  else if field = "RANK" then
    let av : Int := a.rank.getD 999
    let bv : Int := b.rank.getD 999
    match d with
    | .asc => av - bv
    | .desc => bv - av
  else if field = "TOTAL_Z" then compareNumbers d a.totalZ b.totalZ
  else compareNumbers d (a.perCategoryZ.lookup (field ++ "_z"))
    (b.perCategoryZ.lookup (field ++ "_z"))

/-- DashboardTab lines 47-70 `sortedWeekTeams`: empty input short-circuits to
`[]`; otherwise a copy of the input is sorted with the comparator.
`Array.prototype.sort` is required to be stable (ECMA-262), modelled by
`List.mergeSort` with `le a b := cmp a b ≤ 0`. -/
def sortedWeekTeams (field : String) (d : SortDir) (teams : List PowerTeam) :
    List PowerTeam :=
  if teams.isEmpty then []
  else teams.mergeSort (fun a b => decide (cmpWeekTeams field d a b ≤ 0))

/-! ## Model of the OpponentAnalysisTab z-difference normalisation (real
arithmetic, since the code takes a square root) -/

noncomputable section

/-- Mean of a list of JS numbers (`reduce((s,v) => s+v, 0) / length`). -/
def jsMean (l : List ℝ) : ℝ := l.sum / l.length

/-- Population variance as the code computes it. -/
def jsPopVar (l : List ℝ) : ℝ :=
  (l.map (fun v => (v - jsMean l) * (v - jsMean l))).sum / l.length

/-- Population standard deviation. -/
def popStd (l : List ℝ) : ℝ := Real.sqrt (jsPopVar l)

/-- JS `x || dflt` on a real number (no NaN in the real-number model). -/
def jsOrNum (x dflt : ℝ) : ℝ := if x = 0 then dflt else x

/-- OpponentAnalysisTab lines 330-341: one row of `zMatrix`.  In the
real-number model the `Number.isNaN` filter is the identity, so `valid` is
the row itself and the emptiness test is on the row. -/
def zMatrixRow (row : List ℝ) : List ℝ :=
  if row.length = 0 then row.map (fun _ => 0)
  else
    let mean := row.sum / row.length
    let variance := jsOrNum ((row.map (fun v => (v - mean) * (v - mean))).sum / row.length) 0
    let std := jsOrNum (Real.sqrt variance) 1
    row.map (fun v => (v - mean) / std)

end

/-! # Theorems -/

/-! ## Helper lemmas for buildUrl (claims C10, C6) -/

theorem searchSet_of_not_mem (l : List (String × String)) (k v : String)
    (h : ∀ p ∈ l, p.1 ≠ k) : searchSet l k v = l ++ [(k, v)] := by
  unfold searchSet
  have hany : l.any (fun p => p.1 == k) = false := by
    simp only [List.any_eq_false]
    intro p hp
    simpa using h p hp
  simp [hany]

theorem buildUrlParams_go (params : List (String × JSVal)) (acc : List (String × String))
    (hdisj : ∀ p ∈ params, ∀ q ∈ acc, q.1 ≠ p.1)
    (hnodup : (params.map Prod.fst).Nodup) :
    params.foldl
      (fun acc p => if skipParam p.2 then acc else searchSet acc p.1 (jsTrim (jsToString p.2)))
      acc
    = acc ++ (params.filter (fun p => !skipParam p.2)).map
        (fun p => (p.1, jsTrim (jsToString p.2))) := by
  induction params generalizing acc with
  | nil => simp
  | cons p ps ih =>
    simp only [List.map_cons, List.nodup_cons] at hnodup
    simp only [List.foldl_cons]
    by_cases hs : skipParam p.2
    · rw [if_pos hs]
      rw [ih acc (fun a ha q hq => hdisj a (List.mem_cons_of_mem _ ha) q hq) hnodup.2]
      simp [List.filter_cons, hs]
    · rw [if_neg hs]
      rw [searchSet_of_not_mem acc p.1 _ (fun q hq => hdisj p (List.mem_cons_self _ _) q hq)]
      rw [ih (acc ++ [(p.1, jsTrim (jsToString p.2))]) ?_ hnodup.2]
      · simp [List.filter_cons, hs]
      · intro a ha q hq
        rcases List.mem_append.mp hq with hq | hq
        · exact hdisj a (List.mem_cons_of_mem _ ha) q hq
        · simp only [List.mem_singleton] at hq
          subst hq
          intro hcontra
          exact hnodup.1 (hcontra ▸ List.mem_map_of_mem Prod.fst ha)

theorem buildUrlParams_eq (params : List (String × JSVal))
    (hnodup : (params.map Prod.fst).Nodup) :
    buildUrlParams params
      = (params.filter (fun p => !skipParam p.2)).map
          (fun p => (p.1, jsTrim (jsToString p.2))) := by
  simpa [buildUrlParams] using buildUrlParams_go params [] (by simp) hnodup

theorem buildUrlParams_all_skipped (params : List (String × JSVal))
    (h : ∀ p ∈ params, skipParam p.2 = true) : buildUrlParams params = [] := by
  unfold buildUrlParams
  induction params with
  | nil => rfl
  | cons p ps ih =>
    simp only [List.foldl_cons, h p (List.mem_cons_self _ _), if_pos]
    exact ih (fun a ha => h a (List.mem_cons_of_mem _ ha))

/-- Claim C10: `buildUrl` omits every query parameter whose value is null,
undefined or the empty string, stringifies-and-trims every remaining value,
and when no parameter survives it returns the bare path with no `?` suffix. -/
theorem buildUrl_omits_null_undefined_empty (path : String)
    (params : List (String × JSVal)) (hkeys : (params.map Prod.fst).Nodup) :
    buildUrlParams params
        = (params.filter (fun p => !skipParam p.2)).map
            (fun p => (p.1, jsTrim (jsToString p.2)))
    ∧ (∀ v : JSVal, skipParam v = true ↔ v = .vnull ∨ v = .vundef ∨ v = .vstr "")
    ∧ ((∀ p ∈ params, skipParam p.2 = true) → buildUrl path params = API_BASE ++ path) := by
  refine ⟨buildUrlParams_eq params hkeys, ?_, ?_⟩
  · intro v
    cases v <;> simp [skipParam]
  · intro h
    unfold buildUrl
    rw [buildUrlParams_all_skipped params h]
    have h0 : searchToString ([] : List (String × String)) = "" := rfl
    rw [h0]
    simp

/-- Witness for C10 at a concrete parameter list: the null-valued and
empty-string-valued parameters are dropped, the string value survives. -/
theorem buildUrl_omits_witness :
    (([("a", JSVal.vnull), ("b", JSVal.vstr "x"), ("c", JSVal.vstr "")]).map
        Prod.fst).Nodup
    ∧ buildUrlParams [("a", JSVal.vnull), ("b", JSVal.vstr "x"), ("c", JSVal.vstr "")]
        = [("b", "x")] := by
  refine ⟨by decide, ?_⟩
  rw [(buildUrl_omits_null_undefined_empty "/api/meta"
    [("a", JSVal.vnull), ("b", JSVal.vstr "x"), ("c", JSVal.vstr "")] (by decide)).1]
  rfl

/-- Claim C6: `getOpponentMatrixMulti(startYear, endYear, teamId,
currentOwnerEraOnly, refresh)` sends to `/api/analysis/opponent-matrix`
exactly the five parameters, with the two boolean flags encoded as 1 when
true and 0 when false. -/
theorem getOpponentMatrixMulti_params (sy ey tid : Int) (era ref : Bool) :
    getOpponentMatrixMulti sy ey tid era ref =
      ⟨"/api/analysis/opponent-matrix",
       [("startYear", jsTrim (toString sy)),
        ("endYear", jsTrim (toString ey)),
        ("teamId", jsTrim (toString tid)),
        ("currentOwnerEraOnly", if era then "1" else "0"),
        ("refresh", if ref then "1" else "0")]⟩ := by
  cases era <;> cases ref <;> rfl

/-- Claim C5: `fetchJson` raises an error exactly when the response is not
ok (the message contains the status code) and returns the parsed body
otherwise; an ok response with an empty winners list renders as the
"No winners" empty state (the winners renderer has no error variant), with
the error banner state left clear. -/
theorem fetchJson_error_iff_not_ok (β : Type) (α : Type) (url : String)
    (r : HttpResponse β) :
    (r.ok = false →
      ∃ rest, fetchJson url r = .error ("Request failed: " ++ toString r.status ++ rest))
    ∧ (r.ok = true →
        fetchJson url r = .ok r.body ∧ awardsErrState (fetchJson url r) = none)
    ∧ renderWinners (some ([] : List α)) = WinnersView.noWinners
    ∧ renderWinners (none : Option (List α)) = WinnersView.noWinners := by
  refine ⟨?_, ?_, rfl, rfl⟩
  · intro hok
    refine ⟨" " ++ r.statusText ++ " – " ++ (if r.text == "" then url else r.text), ?_⟩
    simp only [fetchJson, hok, Bool.false_eq_true, if_false, Except.error.injEq]
    simp [String.append_assoc]
  · intro hok
    simp [fetchJson, hok, awardsErrState]

/-- Witness for C5 at a concrete 404 response and a concrete ok response. -/
theorem fetchJson_error_iff_not_ok_witness :
    ((⟨false, 404, "NOT FOUND", "", 0⟩ : HttpResponse Nat).ok = false
      ∧ ∃ rest, fetchJson "/api/meta" (⟨false, 404, "NOT FOUND", "", 0⟩ : HttpResponse Nat)
          = .error ("Request failed: " ++ toString 404 ++ rest))
    ∧ ((⟨true, 200, "OK", "", 7⟩ : HttpResponse Nat).ok = true
      ∧ fetchJson "/api/meta" (⟨true, 200, "OK", "", 7⟩ : HttpResponse Nat) = .ok 7) :=
  ⟨⟨rfl, (fetchJson_error_iff_not_ok Nat Nat "/api/meta" ⟨false, 404, "NOT FOUND", "", 0⟩).1 rfl⟩,
   ⟨rfl, ((fetchJson_error_iff_not_ok Nat Nat "/api/meta" ⟨true, 200, "OK", "", 7⟩).2.1 rfl).1⟩⟩

/-! ## Helper lemmas for pickYBY (claim C7) -/

theorem lookup_mem {α : Type} (entries : List (String × α)) (k : String) (v : α)
    (h : entries.lookup k = some v) : (k, v) ∈ entries := by
  induction entries with
  | nil => simp [List.lookup] at h
  | cons p rest ih =>
    rw [List.lookup] at h
    cases hk : k == p.1 with
    | false =>
      simp only [hk] at h
      exact List.mem_cons_of_mem _ (ih h)
    | true =>
      simp only [hk, Option.some.injEq] at h
      have hkp : k = p.1 := by simpa using hk
      have hp : (k, v) = p := by
        rcases p with ⟨pk, pv⟩
        simp only [Prod.mk.injEq]
        exact ⟨by simpa using hkp, h.symm⟩
      rw [hp]
      exact List.mem_cons_self _ _

theorem lookup_of_mem_nodup {α : Type} (entries : List (String × α)) (k : String) (v : α)
    (hnodup : (entries.map Prod.fst).Nodup) (hmem : (k, v) ∈ entries) :
    entries.lookup k = some v := by
  induction entries with
  | nil => simp at hmem
  | cons p rest ih =>
    simp only [List.map_cons, List.nodup_cons] at hnodup
    rw [List.lookup]
    rcases List.mem_cons.mp hmem with hmem | hmem
    · subst hmem
      simp
    · cases hk : k == p.1 with
      | false =>
        simp only [hk]
        exact ih hnodup.2 hmem
      | true =>
        exfalso
        have hkp : k = p.1 := by simpa using hk
        exact hnodup.1 (hkp ▸ List.mem_map_of_mem Prod.fst hmem)

/-- Claim C7: in year_by_year mode AwardsTab renders, per award family,
exactly the winner list stored under the selected year's key of the
partition object (the object's first key when no year is selected); it never
merges several years' lists; a missing or non-object partition yields `[]`. -/
theorem pickYBY_selected_year_only (α : Type) :
    (∀ sel : String, pickYBY sel (.absent : YBYPartition α) = []
        ∧ pickYBY sel (.nonObject : YBYPartition α) = [])
    ∧ (∀ (sel : String) (entries : List (String × Option (List α))) (ws : List α),
        sel ≠ "" → (entries.map Prod.fst).Nodup → (sel, some ws) ∈ entries →
        pickYBY sel (.table entries) = ws)
    ∧ (∀ (k : String) (ws : List α) (rest : List (String × Option (List α))),
        pickYBY "" (.table ((k, some ws) :: rest)) = ws)
    ∧ (∀ (sel : String) (entries : List (String × Option (List α))),
        pickYBY sel (.table entries) = []
          ∨ ∃ k ws, (k, some ws) ∈ entries ∧ pickYBY sel (.table entries) = ws)
    ∧ (∀ (summaryList : List α) (sel : String) (part : YBYPartition α),
        renderedFamilyList .year_by_year summaryList sel part = pickYBY sel part) := by
  refine ⟨fun sel => ⟨rfl, rfl⟩, ?_, ?_, ?_, fun _ _ _ => rfl⟩
  · intro sel entries ws hsel hnodup hmem
    have hbeq : (sel == "") = false := by
      simp only [beq_eq_false_iff_ne, ne_eq]
      exact hsel
    simp only [pickYBY, hbeq, Bool.false_eq_true, if_false]
    rw [lookup_of_mem_nodup entries sel (some ws) hnodup hmem]
  · intro k ws rest
    simp [pickYBY, List.lookup]
  · intro sel entries
    cases hsel : sel == "" with
    | true =>
      cases entries with
      | nil => exact Or.inl (by simp [pickYBY, hsel])
      | cons p rest =>
        rcases hlook : List.lookup p.1 (p :: rest) with - | v
        · exact Or.inl (by simp [pickYBY, hsel, hlook])
        · rcases v with - | ws
          · exact Or.inl (by simp [pickYBY, hsel, hlook])
          · exact Or.inr ⟨p.1, ws, lookup_mem _ _ _ hlook, by simp [pickYBY, hsel, hlook]⟩
    | false =>
      rcases hlook : List.lookup sel entries with - | v
      · exact Or.inl (by simp [pickYBY, hsel, hlook])
      · rcases v with - | ws
        · exact Or.inl (by simp [pickYBY, hsel, hlook])
        · exact Or.inr ⟨sel, ws, lookup_mem _ _ _ hlook, by simp [pickYBY, hsel, hlook]⟩

/-- Witness for C7 at a concrete two-year partition: selecting "2024" yields
precisely the list stored under "2024". -/
theorem pickYBY_selected_year_only_witness :
    (("2024" : String) ≠ ""
      ∧ (([("2025", some [1]), ("2024", some [2, 3])] :
            List (String × Option (List Nat))).map Prod.fst).Nodup
      ∧ ((("2024" : String), some [2, 3]) ∈
          ([("2025", some [1]), ("2024", some [2, 3])] :
            List (String × Option (List Nat)))))
    ∧ pickYBY "2024"
        (.table [("2025", some [1]), ("2024", some [2, 3])] : YBYPartition Nat) = [2, 3] :=
  ⟨⟨by decide, by decide, by decide⟩,
   (pickYBY_selected_year_only Nat).2.1 "2024" [("2025", some [1]), ("2024", some [2, 3])]
     [2, 3] (by decide) (by decide) (by decide)⟩

/-! ## Claim C2: opponent-row record consistency -/

theorem count_outcomes (ws : List MatchOutcome) :
    ws.count .win + ws.count .loss + ws.count .tie = ws.length := by
  induction ws with
  | nil => rfl
  | cons o t ih => cases o <;> simp [List.count_cons] <;> omega

/-- Claim C2: a (team, opponent) pair with zero shared weeks produces no
payload row; a row backed by N shared weeks yields a record summary with
`wins + losses + ties = matchups = N`. -/
theorem opponentRow_record_consistent :
    specOpponentRow [] = none
    ∧ ∀ ws : List MatchOutcome, ws ≠ [] →
        ∃ r, specOpponentRow ws = some r
          ∧ (recordEntry r).wins + (recordEntry r).losses + (recordEntry r).ties
              = (recordEntry r).matchups
          ∧ (recordEntry r).matchups = ws.length := by
  refine ⟨rfl, ?_⟩
  intro ws hne
  refine ⟨⟨some ⟨some (ws.count .win), some (ws.count .loss), some (ws.count .tie),
      some (((ws.count .win : Rat) + 1/2 * (ws.count .tie : Rat)) / (ws.length : Rat))⟩,
      some ws.length⟩, ?_, ?_, ?_⟩
  · simp [specOpponentRow, hne]
  · simp [recordEntry, count_outcomes ws]
  · simp [recordEntry]

/-- Witness for C2 at a concrete four-week outcome list (2 wins, 1 loss,
1 tie). -/
theorem opponentRow_record_consistent_witness :
    ([MatchOutcome.win, .loss, .tie, .win] ≠ [])
    ∧ ∃ r, specOpponentRow [MatchOutcome.win, .loss, .tie, .win] = some r
        ∧ (recordEntry r).wins + (recordEntry r).losses + (recordEntry r).ties
            = (recordEntry r).matchups
        ∧ (recordEntry r).matchups = 4 :=
  ⟨by decide,
   opponentRow_record_consistent.2 [MatchOutcome.win, .loss, .tie, .win] (by decide)⟩

/-! ## Claim C9: clamp01 totality and heat-map alpha bounds -/

/-- Claim C9: `clamp01` is total and bounded, mapping null/undefined/NaN to
0.5 and every number into `[0,1]`; the stats object always carries
`maxAbs ≥ 0.1`; and `getHeatColor`, given a nonnegative `maxAbs`, yields
either a transparent cell or a colour whose alpha lies in `[0.15, 0.75]`. -/
theorem clamp01_getHeatColor_bounds :
    (∀ x : JSNum, 0 ≤ clamp01 x ∧ clamp01 x ≤ 1)
    ∧ clamp01 .missing = 1/2 ∧ clamp01 .nan = 1/2
    ∧ (∀ values : List (List JSNum), 1/10 ≤ (statsOf values).maxAbs)
    ∧ (∀ (v : JSNum) (mode : String) (s : HeatStats), 0 ≤ s.maxAbs →
        getHeatColor v mode s = .transparent ∨
          ∃ r g b a, getHeatColor v mode s = .rgba r g b a
            ∧ 15/100 ≤ a ∧ a ≤ 75/100) := by
  refine ⟨?_, rfl, rfl, ?_, ?_⟩
  · intro x
    cases x with
    | missing => norm_num [clamp01]
    | nan => norm_num [clamp01]
    | val v =>
      simp only [clamp01]
      constructor
      · exact le_min (by norm_num) (le_max_left 0 v)
      · exact min_le_left 1 _
  · intro values
    unfold statsOf
    split
    · norm_num
    · dsimp only
      split
      · norm_num
      · dsimp only
        exact le_max_right _ _
  · intro v mode s hma
    cases v with
    | missing => exact Or.inl rfl
    | nan => exact Or.inl rfl
    | val v =>
      simp only [getHeatColor]
      by_cases hmode : mode = "zDiff"
      · rw [if_pos hmode]
        have hpos : 0 < (if s.maxAbs = 0 then 1 else s.maxAbs) := by
          split
          · norm_num
          · rename_i hz
            exact lt_of_le_of_ne hma (Ne.symm hz)
        have hnorm0 : 0 ≤ min (|v| / (if s.maxAbs = 0 then 1 else s.maxAbs)) 1 :=
          le_min (div_nonneg (abs_nonneg v) hpos.le) zero_le_one
        have hnorm1 : min (|v| / (if s.maxAbs = 0 then 1 else s.maxAbs)) 1 ≤ 1 :=
          min_le_right _ _
        by_cases hv : v ≥ 0
        · rw [if_pos hv]
          exact Or.inr ⟨34, 197, 94, _, rfl, by linarith, by linarith⟩
        · rw [if_neg hv]
          exact Or.inr ⟨239, 68, 68, _, rfl, by linarith, by linarith⟩
      · rw [if_neg hmode]
        have hu0 : 0 ≤ min 1 (max 0 v) := le_min (by norm_num) (le_max_left 0 v)
        have hu1 : min 1 (max 0 v) ≤ 1 := min_le_left 1 _
        by_cases hc : min 1 (max 0 v) = 1/2
        · rw [if_pos hc]
          exact Or.inl rfl
        · rw [if_neg hc]
          by_cases hgt : min 1 (max 0 v) > 1/2
          · rw [if_pos hgt]
            refine Or.inr ⟨34, 197, 94, _, rfl, ?_, ?_⟩
            · have : 0 ≤ (min 1 (max 0 v) - 1/2) / (1 - 1/2) :=
                div_nonneg (by linarith) (by norm_num)
              linarith
            · have hle : (min 1 (max 0 v) - 1/2) / (1 - 1/2) ≤ 1 := by
                rw [div_le_one (by norm_num)]
                linarith
              linarith
          · rw [if_neg hgt]
            have hlt : min 1 (max 0 v) < 1/2 :=
              lt_of_le_of_ne (not_lt.mp hgt) hc
            refine Or.inr ⟨248, 113, 113, _, rfl, ?_, ?_⟩
            · have : 0 ≤ ((1:Rat)/2 - min 1 (max 0 v)) / (1/2) :=
                div_nonneg (by linarith) (by norm_num)
              linarith
            · have hle : ((1:Rat)/2 - min 1 (max 0 v)) / (1/2) ≤ 1 := by
                rw [div_le_one (by norm_num)]
                linarith
              linarith

/-- Witness for C9 at a concrete z-difference cell (value 1, maxAbs 1): the
colour carries alpha 0.75. -/
theorem clamp01_getHeatColor_bounds_witness :
    ((0:Rat) ≤ (⟨0, 1, 1⟩ : HeatStats).maxAbs)
    ∧ (getHeatColor (.val 1) "zDiff" ⟨0, 1, 1⟩ = .transparent ∨
        ∃ r g b a, getHeatColor (.val 1) "zDiff" ⟨0, 1, 1⟩ = .rgba r g b a
          ∧ 15/100 ≤ a ∧ a ≤ 75/100) :=
  ⟨by norm_num,
   clamp01_getHeatColor_bounds.2.2.2.2 (.val 1) "zDiff" ⟨0, 1, 1⟩ (by norm_num)⟩

/-! ## Claim C3: AwardsTab league-scope / summary-mode invariant -/

theorem awStep_league_summary : ∀ (st : AwState) (e : AwEvent),
    (awStep st e).1.scope = AwScope.league → (awStep st e).1.mode = AwMode.summary := by
  decide

/-- Counterexample to claim C3 as stated: from the initial state, the allowed
interaction sequence team scope → year_by_year mode → league scope issues a
league-scope year_by_year awards request during the scope switch — the fetch
effect of the commit that changed the scope runs with the still-uncorrected
mode before the corrective `setMode("summary")` lands. -/
theorem awards_league_yby_request_issued :
    awTraceAllowed ⟨.league, .summary⟩
        [.setScope .team, .setMode .year_by_year, .setScope .league] = true
    ∧ (AwScope.league, AwMode.year_by_year) ∈
        (awRun ⟨.league, .summary⟩
          [.setScope .team, .setMode .year_by_year, .setScope .league]).2 := by
  exact ⟨by decide, by decide⟩

/-- Claim C3 (amended): in every settled (post-effect) reachable state of the
AwardsTab filter controls, league scope implies summary mode — switching
scope to league while mode is year_by_year forces mode back to summary, and
year_by_year cannot be selected while league scope is active.  A league-scope
year_by_year request can however be issued transiently during that forced
switch; whenever one is issued, the step settles on summary mode and its last
request is the corrected league-scope summary request. -/
theorem awards_league_scope_forces_summary :
    (∀ st, AwReachable st → st.scope = .league → st.mode = .summary)
    ∧ (∀ st : AwState, awAllowed st (.setMode .year_by_year) = true → st.scope ≠ .league)
    ∧ (∀ (st : AwState) (e : AwEvent),
        (AwScope.league, AwMode.year_by_year) ∈ (awStep st e).2 →
          (awStep st e).1.mode = .summary
            ∧ (awStep st e).2.getLast? = some (.league, .summary)) := by
  refine ⟨?_, by decide, by decide⟩
  intro st h
  induction h with
  | init => intro _; rfl
  | step st e _ _ _ => exact awStep_league_summary st e

/-- Witness for the amended C3 at the settled state reached by the
counterexample trace. -/
theorem awards_league_scope_forces_summary_witness :
    AwReachable ⟨.league, .summary⟩
    ∧ (⟨.league, .summary⟩ : AwState).mode = .summary :=
  ⟨AwReachable.init,
   awards_league_scope_forces_summary.1 ⟨.league, .summary⟩ AwReachable.init rfl⟩

/-! ## Claim C4: OpponentAnalysisTab year-range invariant -/

theorem applyYears_invariant (r : List Nat) (st : OppYearState)
    (hr : r.isEmpty = true ∨ 2019 ≤ lastD r)
    (hst : ∀ m M, st.minY = some m → st.maxY = some M → m ≤ M) :
    ∀ m M, (applyYears r st).minY = some m → (applyYears r st).maxY = some M → m ≤ M := by
  intro m M hm hM
  unfold applyYears at hm hM
  cases hre : r.isEmpty with
  | true =>
    rw [hre] at hm hM
    simp only [if_true] at hm hM
    exact hst m M hm hM
  | false =>
    rw [hre] at hm hM
    simp only [Bool.false_eq_true, if_false] at hm hM
    have hdm : 2019 ≤ lastD r := by
      rcases hr with hr | hr
      · rw [hre] at hr; exact absurd hr (by simp)
      · exact hr
    cases hmin : st.minY with
    | none =>
      cases hmax : st.maxY with
      | none =>
        rw [hmin] at hm; rw [hmax] at hM
        simp only [initBound, Option.some.injEq] at hm hM
        omega
      | some q =>
        rw [hmin] at hm; rw [hmax] at hM
        simp only [initBound, Option.some.injEq] at hm hM
        split_ifs at hM <;> omega
    | some p =>
      cases hmax : st.maxY with
      | none =>
        rw [hmin] at hm; rw [hmax] at hM
        simp only [initBound, Option.some.injEq] at hm hM
        split_ifs at hm <;> omega
      | some q =>
        have hpq : p ≤ q := hst p q hmin hmax
        rw [hmin] at hm; rw [hmax] at hM
        simp only [initBound, Option.some.injEq] at hm hM
        split_ifs at hm hM <;> omega

theorem applySetMin_invariant (v : Nat) (st : OppYearState)
    (_hst : ∀ m M, st.minY = some m → st.maxY = some M → m ≤ M) :
    ∀ m M, (applySetMin v st).minY = some m → (applySetMin v st).maxY = some M → m ≤ M := by
  intro m M hm hM
  unfold applySetMin at hm hM
  simp only [Option.some.injEq] at hm
  cases hmax : st.maxY with
  | none => rw [hmax] at hM; simp at hM
  | some q =>
    rw [hmax] at hM
    simp only at hM
    split_ifs at hM <;> simp only [Option.some.injEq] at hM <;> omega

theorem applySetMax_invariant (v : Nat) (st : OppYearState)
    (_hst : ∀ m M, st.minY = some m → st.maxY = some M → m ≤ M) :
    ∀ m M, (applySetMax v st).minY = some m → (applySetMax v st).maxY = some M → m ≤ M := by
  intro m M hm hM
  unfold applySetMax at hm hM
  simp only [Option.some.injEq] at hM
  cases hmin : st.minY with
  | none => rw [hmin] at hm; simp at hm
  | some p =>
    rw [hmin] at hm
    simp only at hm
    split_ifs at hm <;> simp only [Option.some.injEq] at hm <;> omega

/-- Counterexample to claim C4 as stated: when every available year precedes
2019 (here `availableYears = [2018]`), the initialisation effect sets
`minYear` to the hardcoded default 2019 without clamping it below the range's
last year, yielding `minYear = 2019 > maxYear = 2018`, and with a team
selected the fetch effect issues that malformed opponent-matrix request. -/
theorem oppYear_init_malformed :
    (applyYears [2018] ⟨[], none, none⟩).minY = some 2019
    ∧ (applyYears [2018] ⟨[], none, none⟩).maxY = some 2018
    ∧ oppRequest true (applyYears [2018] ⟨[], none, none⟩) = some (2019, 2018)
    ∧ ¬ (2019 ≤ 2018) := by
  exact ⟨by decide, by decide, by decide, by decide⟩

/-- Claim C4 (amended): provided every non-empty year range the component
sees has its latest year at least 2019 (the hardcoded default minimum),
every reachable state of the year selectors satisfies `minYear ≤ maxYear` —
the select handlers drag the opposite bound along, the option lists never
offer a value past the opposite bound, and the initialisation effect clamps
set bounds into `[2019, latest]` — so every opponent-matrix request issued
by the fetch effect has a well-formed year range.  Without that proviso the
initialisation default can invert the range (see the counterexample). -/
theorem oppYear_range_wellformed :
    (∀ st, OppReachable st → ∀ m M, st.minY = some m → st.maxY = some M → m ≤ M)
    ∧ (∀ (st : OppYearState) (M v : Nat), st.maxY = some M →
        v ∈ minYearOptions st → v ≤ M)
    ∧ (∀ (st : OppYearState) (m v : Nat), st.minY = some m →
        v ∈ maxYearOptions st → m ≤ v)
    ∧ (∀ (st : OppYearState) (sel : Bool) (m M : Nat), OppReachable st →
        oppRequest sel st = some (m, M) → m ≤ M) := by
  have hinv : ∀ st, OppReachable st → ∀ m M, st.minY = some m → st.maxY = some M → m ≤ M := by
    intro st h
    induction h with
    | init => intro m M hm _; simp at hm
    | years r st _ hr ih => exact applyYears_invariant r st hr ih
    | setMin v st _ ih => exact applySetMin_invariant v st ih
    | setMax v st _ ih => exact applySetMax_invariant v st ih
  refine ⟨hinv, ?_, ?_, ?_⟩
  · intro st M v hM hv
    unfold minYearOptions at hv
    split at hv
    · simp at hv
    · rw [hM] at hv
      simp only at hv
      exact of_decide_eq_true (List.mem_filter.mp hv).2
  · intro st m v hm hv
    unfold maxYearOptions at hv
    split at hv
    · simp at hv
    · rw [hm] at hv
      simp only at hv
      exact of_decide_eq_true (List.mem_filter.mp hv).2
  · intro st sel m M h hreq
    unfold oppRequest at hreq
    cases hmin : st.minY with
    | none => rw [hmin] at hreq; simp at hreq
    | some a =>
      cases hmax : st.maxY with
      | none => rw [hmin, hmax] at hreq; simp at hreq
      | some b =>
        rw [hmin, hmax] at hreq
        simp only at hreq
        split_ifs at hreq
        simp only [Option.some.injEq, Prod.mk.injEq] at hreq
        obtain ⟨ha, hb⟩ := hreq
        have := hinv st h a b hmin hmax
        omega

/-- Witness for the amended C4 at a concrete reachable state: initialising
with the range [2019, 2020] sets the bounds to 2019 and 2020. -/
theorem oppYear_range_wellformed_witness :
    OppReachable (applyYears [2019, 2020] ⟨[], none, none⟩) ∧ 2019 ≤ 2020 :=
  have hreach : OppReachable (applyYears [2019, 2020] ⟨[], none, none⟩) :=
    OppReachable.years [2019, 2020] ⟨[], none, none⟩ OppReachable.init
      (Or.inr (by decide))
  ⟨hreach,
   oppYear_range_wellformed.1 (applyYears [2019, 2020] ⟨[], none, none⟩) hreach
     2019 2020 (by decide) (by decide)⟩

/-! ## Claim C8: determinism, permutation and stability of the weekly sort -/

theorem sign3_swap {α : Type} [LinearOrder α] (x y : α) : sign3 y x = -sign3 x y := by
  unfold sign3
  rcases lt_trichotomy x y with h | h | h
  · simp [h, not_lt_of_lt h]
  · subst h
    simp
  · simp [h, not_lt_of_lt h]

theorem sign3_nonpos_iff {α : Type} [LinearOrder α] (x y : α) :
    sign3 x y ≤ 0 ↔ x ≤ y := by
  unfold sign3
  rcases lt_trichotomy x y with h | h | h
  · simp [h, not_lt_of_lt h, h.le]
  · simp [h, lt_irrefl]
  · simp [h, not_lt_of_lt h, not_le_of_lt h]

theorem compareStrings_swap (d : SortDir) (a b : Option String) :
    compareStrings d b a = -compareStrings d a b := by
  cases d with
  | asc =>
    simp only [compareStrings]
    exact sign3_swap _ _
  | desc =>
    simp only [compareStrings]
    rw [sign3_swap (Option.getD a "") (Option.getD b "")]

theorem compareNumbers_swap (d : SortDir) (a b : Option Rat) :
    compareNumbers d b a = -compareNumbers d a b := by
  unfold compareNumbers
  by_cases h : numKey a = numKey b
  · simp [h]
  · rw [if_neg h, if_neg (fun hc => h hc.symm)]
    cases d with
    | asc => exact sign3_swap _ _
    | desc => exact sign3_swap _ _

theorem cmpWeekTeams_swap (field : String) (d : SortDir) (a b : PowerTeam) :
    cmpWeekTeams field d b a = -cmpWeekTeams field d a b := by
  unfold cmpWeekTeams
  split_ifs with h1 h2 h3
  · exact compareStrings_swap d _ _
  · cases d <;> dsimp only <;> omega
  · exact compareNumbers_swap d _ _
  · exact compareNumbers_swap d _ _

theorem compareStrings_nonpos (d : SortDir) (a b : Option String) :
    compareStrings d a b ≤ 0 ↔
      (match d with
       | .asc => a.getD "" ≤ b.getD ""
       | .desc => b.getD "" ≤ a.getD "") := by
  cases d with
  | asc => exact sign3_nonpos_iff _ _
  | desc =>
    show -sign3 (a.getD "") (b.getD "") ≤ 0 ↔ _
    rw [← sign3_swap]
    exact sign3_nonpos_iff _ _

theorem compareNumbers_nonpos (d : SortDir) (a b : Option Rat) :
    compareNumbers d a b ≤ 0 ↔
      (match d with
       | .asc => numKey a ≤ numKey b
       | .desc => numKey b ≤ numKey a) := by
  unfold compareNumbers
  by_cases h : numKey a = numKey b
  · cases d <;> simp [h]
  · rw [if_neg h]
    cases d with
    | asc => exact sign3_nonpos_iff _ _
    | desc => exact sign3_nonpos_iff _ _

theorem cmpWeekTeams_trans (field : String) (d : SortDir) (a b c : PowerTeam)
    (hab : cmpWeekTeams field d a b ≤ 0) (hbc : cmpWeekTeams field d b c ≤ 0) :
    cmpWeekTeams field d a c ≤ 0 := by
  unfold cmpWeekTeams at hab hbc ⊢
  split_ifs at hab hbc ⊢ with h1 h2 h3
  · rw [compareStrings_nonpos] at hab hbc ⊢
    cases d
    · exact le_trans hab hbc
    · exact le_trans hbc hab
  · cases d <;> dsimp only at hab hbc ⊢ <;> omega
  · rw [compareNumbers_nonpos] at hab hbc ⊢
    cases d
    · exact le_trans hab hbc
    · exact le_trans hbc hab
  · rw [compareNumbers_nonpos] at hab hbc ⊢
    cases d
    · exact le_trans hab hbc
    · exact le_trans hbc hab

theorem cmpWeekTeams_total (field : String) (d : SortDir) (a b : PowerTeam) :
    cmpWeekTeams field d a b ≤ 0 ∨ cmpWeekTeams field d b a ≤ 0 := by
  rw [cmpWeekTeams_swap]
  omega

/-- Claim C8: the weekly power sort is deterministic (equal inputs and sort
settings give equal outputs), its output is a permutation of its input, any
two teams the comparator ties (equal sort keys, e.g. identical totalZ) keep
their input order in the output (stability of `Array.prototype.sort`), and
the empty input yields the empty list. -/
theorem sortedWeekTeams_deterministic_stable :
    (∀ (l₁ l₂ : List PowerTeam) (field : String) (d : SortDir), l₁ = l₂ →
        sortedWeekTeams field d l₁ = sortedWeekTeams field d l₂)
    ∧ (∀ (field : String) (d : SortDir) (l : List PowerTeam),
        (sortedWeekTeams field d l).Perm l)
    ∧ (∀ (field : String) (d : SortDir) (l : List PowerTeam) (a b : PowerTeam),
        cmpWeekTeams field d a b = 0 → [a, b].Sublist l →
          [a, b].Sublist (sortedWeekTeams field d l))
    ∧ (∀ (field : String) (d : SortDir), sortedWeekTeams field d [] = []) := by
  refine ⟨fun l₁ l₂ field d h => h ▸ rfl, ?_, ?_, fun _ _ => rfl⟩
  · intro field d l
    unfold sortedWeekTeams
    cases hl : l.isEmpty with
    | true =>
      simp only [if_true]
      rw [List.isEmpty_iff.mp hl]
    | false =>
      simp only [Bool.false_eq_true, if_false]
      exact List.mergeSort_perm l _
  · intro field d l a b hcmp hsub
    unfold sortedWeekTeams
    cases hl : l.isEmpty with
    | true =>
      exfalso
      rw [List.isEmpty_iff.mp hl] at hsub
      simp at hsub
    | false =>
      simp only [Bool.false_eq_true, if_false]
      refine List.pair_sublist_mergeSort ?_ ?_ ?_ hsub
      · intro x y z hxy hyz
        simp only [decide_eq_true_eq] at hxy hyz ⊢
        exact cmpWeekTeams_trans field d x y z hxy hyz
      · intro x y
        rcases cmpWeekTeams_total field d x y with h | h <;> simp [h]
      · simp only [decide_eq_true_eq]
        omega

/-- Witness for C8: two teams with equal rank keys keep their input order
through the sort. -/
theorem sortedWeekTeams_deterministic_stable_witness :
    cmpWeekTeams "RANK" .asc ⟨some "A", some 1, none, []⟩ ⟨some "B", some 1, none, []⟩ = 0
    ∧ [(⟨some "A", some 1, none, []⟩ : PowerTeam), ⟨some "B", some 1, none, []⟩].Sublist
        (sortedWeekTeams "RANK" .asc
          [⟨some "A", some 1, none, []⟩, ⟨some "B", some 1, none, []⟩]) :=
  ⟨by decide,
   sortedWeekTeams_deterministic_stable.2.2.1 "RANK" .asc
     [⟨some "A", some 1, none, []⟩, ⟨some "B", some 1, none, []⟩]
     ⟨some "A", some 1, none, []⟩ ⟨some "B", some 1, none, []⟩
     (by decide) (List.Sublist.refl _)⟩

/-! ## Claim C1: z-difference row normalisation -/

theorem jsOrNum_zero_default (x : ℝ) : jsOrNum x 0 = x := by
  unfold jsOrNum
  split_ifs with h
  · rw [h]
  · rfl

theorem sum_map_sub_const (l : List ℝ) (c : ℝ) :
    (l.map (fun v => v - c)).sum = l.sum - l.length * c := by
  induction l with
  | nil => simp
  | cons x t ih =>
    simp only [List.map_cons, List.sum_cons, List.length_cons, ih]
    push_cast
    ring

theorem sum_dev_zero (l : List ℝ) (h : l ≠ []) :
    (l.map (fun v => v - jsMean l)).sum = 0 := by
  have hlen : (l.length : ℝ) ≠ 0 := Nat.cast_ne_zero.mpr (List.length_pos.mpr h).ne'
  rw [sum_map_sub_const]
  unfold jsMean
  field_simp

theorem sum_map_div (l : List ℝ) (f : ℝ → ℝ) (s : ℝ) :
    (l.map (fun v => f v / s)).sum = (l.map f).sum / s := by
  induction l with
  | nil => simp
  | cons x t ih => simp [ih, add_div]

theorem sum_sq_nonneg (l : List ℝ) (c : ℝ) :
    0 ≤ (l.map (fun v => (v - c) * (v - c))).sum := by
  apply List.sum_nonneg
  intro x hx
  obtain ⟨v, -, rfl⟩ := List.mem_map.mp hx
  exact mul_self_nonneg _

theorem sum_nonneg_all_zero (l : List ℝ) (hpos : ∀ x ∈ l, 0 ≤ x) (hsum : l.sum = 0) :
    ∀ x ∈ l, x = 0 := by
  induction l with
  | nil => simp
  | cons a t ih =>
    have ha : 0 ≤ a := hpos a (List.mem_cons_self _ _)
    have ht : 0 ≤ t.sum :=
      List.sum_nonneg (fun x hx => hpos x (List.mem_cons_of_mem _ hx))
    rw [List.sum_cons] at hsum
    intro x hx
    rcases List.mem_cons.mp hx with rfl | hx
    · linarith
    · exact ih (fun y hy => hpos y (List.mem_cons_of_mem _ hy)) (by linarith) x hx

theorem all_eq_mean_of_all_eq (l : List ℝ) (h : l ≠ [])
    (hall : ∀ v ∈ l, ∀ w ∈ l, v = w) : ∀ v ∈ l, v = jsMean l := by
  obtain ⟨a, t, rfl⟩ := List.exists_cons_of_ne_nil h
  have hmem : a ∈ a :: t := List.mem_cons_self _ _
  have hconst : ∀ x ∈ a :: t, x = a := fun x hx => hall x hx a hmem
  have hsum : (a :: t).sum = (a :: t).length • a := List.sum_eq_card_nsmul _ a hconst
  have hlen : ((a :: t).length : ℝ) ≠ 0 := Nat.cast_ne_zero.mpr (by simp)
  have hmean : jsMean (a :: t) = a := by
    unfold jsMean
    rw [hsum, nsmul_eq_mul, mul_div_cancel_left₀ _ hlen]
  intro v hv
  rw [hmean]
  exact hconst v hv

theorem var_nonneg (l : List ℝ) : 0 ≤ jsPopVar l := by
  unfold jsPopVar
  exact div_nonneg (sum_sq_nonneg l _) (Nat.cast_nonneg _)

theorem all_eq_of_var_zero (l : List ℝ) (h : l ≠ []) (hvar : jsPopVar l = 0) :
    ∀ v ∈ l, v = jsMean l := by
  have hlen : (l.length : ℝ) ≠ 0 := Nat.cast_ne_zero.mpr (List.length_pos.mpr h).ne'
  unfold jsPopVar at hvar
  rw [div_eq_zero_iff] at hvar
  rcases hvar with hvar | hvar
  · intro v hv
    have hz := sum_nonneg_all_zero _
      (fun x hx => by
        obtain ⟨w, -, rfl⟩ := List.mem_map.mp hx
        exact mul_self_nonneg _) hvar
      ((v - jsMean l) * (v - jsMean l))
      (List.mem_map_of_mem _ hv)
    have := mul_self_eq_zero.mp hz
    linarith
  · exact absurd hvar hlen

theorem zMatrixRow_eq (row : List ℝ) (hne : row ≠ []) :
    zMatrixRow row
      = row.map (fun v => (v - jsMean row) / jsOrNum (Real.sqrt (jsPopVar row)) 1) := by
  unfold zMatrixRow
  rw [if_neg (List.length_pos.mpr hne).ne']
  simp only [jsOrNum_zero_default]
  rfl

/-- Claim C1: normalising a numeric z-difference row subtracts the row mean
and divides by the population standard deviation; when the row is not
constant, the resulting row has mean 0 and population standard deviation
(and variance) 1; when every input value is equal, every normalised value is
0. -/
theorem zMatrixRow_normalized (row : List ℝ) (hne : row ≠ []) :
    ((∀ v ∈ row, ∀ w ∈ row, v = w) → zMatrixRow row = row.map (fun _ => 0))
    ∧ ((¬ ∀ v ∈ row, ∀ w ∈ row, v = w) →
        jsMean (zMatrixRow row) = 0 ∧ jsPopVar (zMatrixRow row) = 1
          ∧ popStd (zMatrixRow row) = 1) := by
  constructor
  · intro hall
    rw [zMatrixRow_eq row hne]
    apply List.map_congr_left
    intro v hv
    rw [all_eq_mean_of_all_eq row hne hall v hv]
    simp
  · intro hnall
    have hvarpos : 0 < jsPopVar row := by
      rcases lt_or_eq_of_le (var_nonneg row) with h | h
      · exact h
      · exfalso
        apply hnall
        intro v hv w hw
        rw [all_eq_of_var_zero row hne h.symm v hv, all_eq_of_var_zero row hne h.symm w hw]
    have hstdpos : 0 < Real.sqrt (jsPopVar row) := Real.sqrt_pos.mpr hvarpos
    have hOr : jsOrNum (Real.sqrt (jsPopVar row)) 1 = Real.sqrt (jsPopVar row) := by
      unfold jsOrNum
      rw [if_neg hstdpos.ne']
    have hz : zMatrixRow row
        = row.map (fun v => (v - jsMean row) / Real.sqrt (jsPopVar row)) := by
      rw [zMatrixRow_eq row hne, hOr]
    have hlen : (row.length : ℝ) ≠ 0 := Nat.cast_ne_zero.mpr (List.length_pos.mpr hne).ne'
    have hmean0 : jsMean (zMatrixRow row) = 0 := by
      rw [hz, jsMean]
      rw [List.length_map, sum_map_div row (fun v => v - jsMean row) (Real.sqrt (jsPopVar row)),
        sum_dev_zero row hne]
      simp
    have hvar1 : jsPopVar (zMatrixRow row) = 1 := by
      unfold jsPopVar
      rw [hmean0, hz, List.length_map, List.map_map]
      have hcomp : ((fun u => (u - 0) * (u - 0))
            ∘ (fun v => (v - jsMean row) / Real.sqrt (jsPopVar row)))
          = fun v => ((v - jsMean row) * (v - jsMean row))
              / (Real.sqrt (jsPopVar row) * Real.sqrt (jsPopVar row)) := by
        funext v
        simp only [Function.comp, sub_zero]
        rw [div_mul_div_comm]
      rw [hcomp,
        sum_map_div row (fun v => (v - jsMean row) * (v - jsMean row))
          (Real.sqrt (jsPopVar row) * Real.sqrt (jsPopVar row)),
        Real.mul_self_sqrt hvarpos.le]
      have : (row.map (fun v => (v - jsMean row) * (v - jsMean row))).sum / jsPopVar row
            / (row.length : ℝ)
          = ((row.map (fun v => (v - jsMean row) * (v - jsMean row))).sum / (row.length : ℝ))
            / jsPopVar row := by
        ring
      rw [this]
      have hvr : (row.map (fun v => (v - jsMean row) * (v - jsMean row))).sum
            / (row.length : ℝ) = jsPopVar row := rfl
      rw [hvr]
      exact div_self hvarpos.ne'
    refine ⟨hmean0, hvar1, ?_⟩
    unfold popStd
    rw [hvar1, Real.sqrt_one]

/-- Witness for C1 at the concrete row [1, 3]: the normalised row has mean 0
and population variance and standard deviation 1. -/
theorem zMatrixRow_normalized_witness :
    (([1, 3] : List ℝ) ≠ [])
    ∧ jsMean (zMatrixRow [1, 3]) = 0 ∧ jsPopVar (zMatrixRow [1, 3]) = 1
      ∧ popStd (zMatrixRow [1, 3]) = 1 :=
  ⟨by simp,
   (zMatrixRow_normalized [1, 3] (by simp)).2 (by
     intro h
     have := h 1 (by simp) 3 (by simp)
     norm_num at this)⟩
